import Mathlib

/-!
Shallow embedding of the vote-casting core of the `voting-machine` repository.

The definitions below are translated from:
- `src/shared/schema.ts` (the row types and the `one_vote_per_position`
  unique constraint on the `votes` table),
- `src/server/storage.ts` (`MemStorage`: the in-memory stores and the
  vote/candidate/statistics methods, and `DatabaseStorage.createVote`),
- `src/server/routes.ts` (the `POST /api/student/vote` handler and its
  catch block, and the `DELETE /api/admin/candidates/:id` handler).

JavaScript `Map` values iterate in key-insertion order, so each store is
modelled as a `List` in insertion order; `Map.set` on an existing key keeps
the entry's slot in the iteration order, which `bumpCount` mirrors.
Timestamps (`new Date()`) are modelled by a `clock : Nat` field of the state.
-/

namespace VotingMachine

/-- Row of the `students` table (src/shared/schema.ts, lines 51-58). -/
structure Student where
  id : Nat
  userId : Nat
  studentId : String
  departmentId : Nat
  courseId : Nat
  levelId : Nat
deriving DecidableEq, Repr

/-- Row of the `departments` table (src/shared/schema.ts, lines 31-34). -/
structure Department where
  id : Nat
  name : String
deriving DecidableEq, Repr

/-- Row of the `candidates` table (src/shared/schema.ts, lines 72-81). -/
structure Candidate where
  id : Nat
  studentId : Nat
  positionId : Nat
  manifesto : String
deriving DecidableEq, Repr

/-- Row of the `votes` table (src/shared/schema.ts, lines 83-93). -/
structure Vote where
  id : Nat
  studentId : Nat
  candidateId : Nat
  positionId : Nat
  timestamp : Nat
deriving DecidableEq, Repr

/-- Row of the `settings` table (src/shared/schema.ts, lines 163-167). -/
structure Setting where
  id : Nat
  key : String
  value : String
deriving DecidableEq, Repr

/-- Payload accepted by `insertVoteSchema` (src/shared/schema.ts, lines
216-220): the picked columns `studentId`, `candidateId`, `positionId`. -/
structure InsertVote where
  studentId : Nat
  candidateId : Nat
  positionId : Nat
deriving DecidableEq, Repr

/-- The slice of `MemStorage` state (src/server/storage.ts, lines 117-197)
that the vote-casting core reads or writes.  Stores are lists in insertion
order (JavaScript `Map.values()` order). -/
structure MemStorage where
  departmentStore : List Department
  studentStore : List Student
  candidateStore : List Candidate
  voteStore : List Vote
  voteIdCounter : Nat
  settingStore : List Setting
  clock : Nat
deriving DecidableEq, Repr

/-- `MemStorage.getSetting` (src/server/storage.ts, lines 678-683): find the
setting with the given key and return its value. -/
def getSetting (s : MemStorage) (key : String) : Option String :=
  (s.settingStore.find? (fun st => st.key == key)).map Setting.value

/-- `MemStorage.getStudentByStudentId` (src/server/storage.ts, lines
322-326). -/
def getStudentByStudentId (s : MemStorage) (studentId : String) : Option Student :=
  s.studentStore.find? (fun st => st.studentId == studentId)

/-- `MemStorage.getVotes` (src/server/storage.ts, lines 465-467). -/
def getVotes (s : MemStorage) : List Vote :=
  s.voteStore

/-- `MemStorage.getVotesByPosition` (src/server/storage.ts, lines 469-473). -/
def getVotesByPosition (s : MemStorage) (positionId : Nat) : List Vote :=
  s.voteStore.filter (fun v => v.positionId == positionId)

/-- `MemStorage.getVotesByStudent` (src/server/storage.ts, lines 475-479). -/
def getVotesByStudent (s : MemStorage) (studentId : Nat) : List Vote :=
  s.voteStore.filter (fun v => v.studentId == studentId)

/-- `MemStorage.hasStudentVotedForPosition` (src/server/storage.ts, lines
481-485). -/
def hasStudentVotedForPosition (s : MemStorage) (studentId positionId : Nat) : Bool :=
  s.voteStore.any (fun v => v.studentId == studentId && v.positionId == positionId)

/-- `MemStorage.createVote` (src/server/storage.ts, lines 487-498): throws
when the student already voted for the position, otherwise assigns the next
id and timestamp and inserts the vote. -/
def createVote (s : MemStorage) (vote : InsertVote) : Except String (Vote × MemStorage) :=
  if hasStudentVotedForPosition s vote.studentId vote.positionId then
    .error "Student has already voted for this position"
  else
    let newVote : Vote :=
      { id := s.voteIdCounter, studentId := vote.studentId,
        candidateId := vote.candidateId, positionId := vote.positionId,
        timestamp := s.clock }
    .ok (newVote,
      { s with voteStore := s.voteStore ++ [newVote],
               voteIdCounter := s.voteIdCounter + 1 })

/-- `MemStorage.deleteCandidate` (src/server/storage.ts, lines 453-462):
refuse when some vote references the candidate, otherwise delete the map
entry and report whether it existed. -/
def deleteCandidate (s : MemStorage) (id : Nat) : Bool × MemStorage :=
  if s.voteStore.any (fun v => v.candidateId == id) then
    (false, s)
  else
    (s.candidateStore.any (fun c => c.id == id),
     { s with candidateStore := s.candidateStore.filter (fun c => !(c.id == id)) })

/-- `MemStorage.resetVotes` (src/server/storage.ts, lines 709-714): clear
the vote store and reset the id counter. -/
def resetVotes (s : MemStorage) : Bool × MemStorage :=
  (true, { s with voteStore := [], voteIdCounter := 1 })

/-- One step of the `voteCounts` map construction inside
`MemStorage.getVotesCountByPosition` (src/server/storage.ts, lines 504-508):
`voteCounts.set(c, (voteCounts.get(c) ?? 0) + 1)` on a JavaScript `Map`
increments the entry in place when the key is present (keeping its
insertion-order slot) and appends a fresh entry with count 1 otherwise. -/
def bumpCount : List (Nat × Nat) → Nat → List (Nat × Nat)
  | [], c => [(c, 1)]
  | (k, n) :: rest, c =>
      if k = c then (k, n + 1) :: rest else (k, n) :: bumpCount rest c

/-- `MemStorage.getVotesCountByPosition` (src/server/storage.ts, lines
500-515): group the position's votes by candidate and return the
(candidateId, count) pairs in map-insertion order. -/
def getVotesCountByPosition (s : MemStorage) (positionId : Nat) : List (Nat × Nat) :=
  (getVotesByPosition s positionId).foldl (fun acc v => bumpCount acc v.candidateId) []

/-- One element of the result of `getVotingStatsByDepartment`
(src/server/storage.ts, lines 542-546). -/
structure DeptStat where
  departmentId : Nat
  departmentName : String
  percentage : Int
deriving DecidableEq, Repr

/-- JavaScript `Math.round` on an exact rational: round half toward
positive infinity, i.e. the floor of `q + 1/2`. -/
def mathRound (q : ℚ) : Int :=
  ⌊q + 1 / 2⌋

/-- The `departmentStudents` filter inside
`MemStorage.getVotingStatsByDepartment` (src/server/storage.ts, line 526). -/
def departmentMembers (s : MemStorage) (departmentId : Nat) : List Student :=
  s.studentStore.filter (fun st => st.departmentId == departmentId)

/-- `MemStorage.getVotingStatsByDepartment` (src/server/storage.ts, lines
517-550): for each department, skip it when it has no students
(`if (totalStudents === 0) continue`), otherwise report the percentage of
its students that have cast at least one vote, rounded with `Math.round`.
The JavaScript `Set` of voted student ids is modelled by `dedup`, whose
length is the number of distinct elements. -/
def getVotingStatsByDepartment (s : MemStorage) : List DeptStat :=
  s.departmentStore.filterMap (fun d =>
    let departmentStudents := departmentMembers s d.id
    let totalStudents := departmentStudents.length
    if totalStudents = 0 then
      none
    else
      let departmentStudentIds := departmentStudents.map Student.id
      let votedStudentIds :=
        ((s.voteStore.filter
            (fun v => departmentStudentIds.contains v.studentId)).map
          Vote.studentId).dedup
      let votedCount := votedStudentIds.length
      some { departmentId := d.id, departmentName := d.name,
             percentage := mathRound ((votedCount : ℚ) / (totalStudents : ℚ) * 100) })

/-- Outcome of the `POST /api/student/vote` handler (src/server/routes.ts,
lines 488-535), one constructor per `return`/`res` site: 403 "Voting is
currently closed", 401 "Not authenticated", 404 "Student profile not
found", 400 "You have already voted for this position", 500 with the raw
error message, and 201 "Vote cast successfully".  The handler has no
candidate-mismatch outcome. -/
inductive VoteOutcome where
  | votingClosed
  | notAuthenticated
  | studentNotFound
  | alreadyVoted
  | storageError (msg : String)
  | success
deriving DecidableEq, Repr

/-- A request to `POST /api/student/vote`: the authenticated user's
username (`req.user`, when present) and the `candidateId`/`positionId`
fields of the body.  With both fields present as integers,
`insertVoteSchema.parse` succeeds and yields exactly these fields plus the
server-chosen `studentId`. -/
structure VoteRequest where
  user : Option String
  candidateId : Nat
  positionId : Nat
deriving DecidableEq, Repr

/-- The `POST /api/student/vote` handler (src/server/routes.ts, lines
488-535), in source order: the `votingEnabled` setting gate first, then
authentication, then student lookup, then the duplicate-vote pre-check on
the `validatedData` produced by `insertVoteSchema.parse` (the body's
`candidateId` and `positionId` plus the server-chosen `studentId`), then
`storage.createVote`.  No candidate lookup and no candidate/position
consistency check appear anywhere in the handler. -/
def castVoteRoute (s : MemStorage) (req : VoteRequest) : VoteOutcome × MemStorage :=
  if getSetting s "votingEnabled" ≠ some "true" then
    (.votingClosed, s)
  else
    match req.user with
    | none => (.notAuthenticated, s)
    | some username =>
      match getStudentByStudentId s username with
      | none => (.studentNotFound, s)
      | some student =>
        if hasStudentVotedForPosition s student.id req.positionId then
          (.alreadyVoted, s)
        else
          match createVote s { studentId := student.id,
                               candidateId := req.candidateId,
                               positionId := req.positionId } with
          | .error msg => (.storageError msg, s)
          | .ok (_, s2) => (.success, s2)

/-- Errors the persistent storage layer can raise from
`DatabaseStorage.createVote` (src/server/storage.ts, lines 1003-1006): the
insert violates the `one_vote_per_position` unique constraint declared in
src/shared/schema.ts (lines 89-93), or the database fails for an
infrastructure reason. -/
inductive DbError where
  | uniqueViolation (constraintName : String)
  | connectionFailure (msg : String)
deriving DecidableEq, Repr

/-- Message text carried by a storage error object (`error.message`). -/
def dbErrorMessage : DbError → String
  | .uniqueViolation c => "duplicate key value violates unique constraint " ++ c
  | .connectionFailure m => m

/-- Vote-table state seen by `DatabaseStorage`. -/
structure DbState where
  votes : List Vote
  nextId : Nat
  clock : Nat
deriving DecidableEq, Repr

/-- `DatabaseStorage.createVote` (src/server/storage.ts, lines 1003-1006):
a bare `db.insert(votes).values(vote).returning()` with no try/catch and no
error translation.  The underlying insert raises the
`one_vote_per_position` unique-constraint violation (src/shared/schema.ts,
lines 89-93) when a vote for the same (studentId, positionId) pair is
already stored, and that error propagates to the caller untranslated. -/
def dbCreateVote (db : DbState) (vote : InsertVote) : Except DbError (Vote × DbState) :=
  if db.votes.any (fun v => v.studentId == vote.studentId && v.positionId == vote.positionId) then
    .error (.uniqueViolation "one_vote_per_position")
  else
    let newVote : Vote :=
      { id := db.nextId, studentId := vote.studentId,
        candidateId := vote.candidateId, positionId := vote.positionId,
        timestamp := db.clock }
    .ok (newVote, { db with votes := db.votes ++ [newVote], nextId := db.nextId + 1 })

/-- An error reaching the catch block of the `POST /api/student/vote`
handler (src/server/routes.ts, lines 529-534): either a Zod validation
error or an error thrown by the storage layer. -/
inductive RouteError where
  | zodError (msg : String)
  | storageFailure (e : DbError)
deriving DecidableEq, Repr

/-- An HTTP response produced by the handler: status code and message. -/
structure HttpResponse where
  status : Nat
  message : String
deriving DecidableEq, Repr

/-- The catch block of `POST /api/student/vote` (src/server/routes.ts,
lines 529-534): `if (error.name === "ZodError")` respond 400 "Invalid vote
data", otherwise respond 500 with the raw `error.message`.  Every storage
failure, the uniqueness violation included, takes the second branch. -/
def voteCatchHandler : RouteError → HttpResponse
  | .zodError _ => { status := 400, message := "Invalid vote data" }
  | .storageFailure e => { status := 500, message := dbErrorMessage e }

/-- The domain-level duplicate-vote response of the handler
(src/server/routes.ts, lines 517-519): status 400,
"You have already voted for this position".  It is produced only by the
explicit `hasStudentVotedForPosition` pre-check. -/
def duplicateVoteResponse : HttpResponse :=
  { status := 400, message := "You have already voted for this position" }

/-- The central invariant of the spec: for every (voter, position) pair the
vote store holds at most one Vote. -/
def VoteUnique (s : MemStorage) : Prop :=
  ∀ studentId positionId : Nat,
    (s.voteStore.filter
      (fun v => v.studentId == studentId && v.positionId == positionId)).length ≤ 1

/-- Position-wise lookup in an association list of (candidateId, count)
pairs; 0 when absent.  Used to state properties of `bumpCount` folds. -/
def lookupCount : List (Nat × Nat) → Nat → Nat
  | [], _ => 0
  | (k, n) :: rest, c => if k = c then n else lookupCount rest c

/-- Number of distinct members of a department's cohort who have cast at
least one vote, phrased the way the spec words it: the card of the set of
member ids that have a nonempty vote list. -/
def votersCard (s : MemStorage) (departmentId : Nat) : Nat :=
  (((departmentMembers s departmentId).map Student.id).toFinset.filter
    (fun i => getVotesByStudent s i ≠ [])).card

/-- Example student "S001" used by concrete test states. -/
def st1 : Student := ⟨1, 1, "S001", 1, 1, 1⟩

/-- Example student "S002" used by concrete test states. -/
def st2 : Student := ⟨2, 2, "S002", 1, 1, 1⟩

/-- Example student "S003" used by concrete test states. -/
def st3 : Student := ⟨3, 3, "S003", 1, 1, 1⟩

/-- Concrete state: voting enabled, student 1 present, candidate 1 stored
with positionId 2, no votes yet. -/
def mismatchState : MemStorage :=
  { departmentStore := [⟨1, "Engineering"⟩]
    studentStore := [st1]
    candidateStore := [⟨1, 2, 2, "manifesto"⟩]
    voteStore := []
    voteIdCounter := 1
    settingStore := [⟨1, "votingEnabled", "true"⟩]
    clock := 0 }

/-- Concrete cast request: student "S001" votes for candidate 1 under
position 1, while candidate 1 is stored under position 2. -/
def mismatchReq : VoteRequest := ⟨some "S001", 1, 1⟩

/-- Concrete state: three students in department 1, one vote (by student
1), voting enabled. -/
def partState : MemStorage :=
  { departmentStore := [⟨1, "Engineering"⟩]
    studentStore := [st1, st2, st3]
    candidateStore := [⟨1, 4, 1, "m"⟩]
    voteStore := [⟨1, 1, 1, 1, 0⟩]
    voteIdCounter := 2
    settingStore := [⟨1, "votingEnabled", "true"⟩]
    clock := 1 }

/-- Concrete state: one department with no students at all. -/
def emptyDeptState : MemStorage :=
  { departmentStore := [⟨1, "Empty"⟩]
    studentStore := []
    candidateStore := []
    voteStore := []
    voteIdCounter := 1
    settingStore := [⟨1, "votingEnabled", "true"⟩]
    clock := 0 }

/-- Concrete state: voting disabled, with an otherwise valid student and
candidate in place. -/
def closedState : MemStorage :=
  { departmentStore := [⟨1, "Engineering"⟩]
    studentStore := [st1]
    candidateStore := [⟨1, 2, 1, "m"⟩]
    voteStore := []
    voteIdCounter := 1
    settingStore := [⟨1, "votingEnabled", "false"⟩]
    clock := 0 }

/-- Concrete state: student 1 has already voted for candidate 1 under
position 1, and voting is enabled. -/
def votedState : MemStorage :=
  { departmentStore := [⟨1, "Engineering"⟩]
    studentStore := [st1]
    candidateStore := [⟨1, 2, 1, "m"⟩]
    voteStore := [⟨1, 1, 1, 1, 0⟩]
    voteIdCounter := 2
    settingStore := [⟨1, "votingEnabled", "true"⟩]
    clock := 1 }

/-- Concrete database vote-table state holding a vote by student 1 for
position 1. -/
def dbDupState : DbState := ⟨[⟨1, 1, 1, 1, 0⟩], 2, 1⟩

theorem lookupCount_bumpCount_self (al : List (Nat × Nat)) (c : Nat) :
    lookupCount (bumpCount al c) c = lookupCount al c + 1 := by
  induction al with
  | nil => simp [bumpCount, lookupCount]
  | cons e rest ih =>
    obtain ⟨k, n⟩ := e
    by_cases h : k = c
    · subst h
      simp [bumpCount, lookupCount]
    · simp [bumpCount, lookupCount, h, ih]

theorem lookupCount_bumpCount_ne (al : List (Nat × Nat)) {c c' : Nat} (h : c' ≠ c) :
    lookupCount (bumpCount al c) c' = lookupCount al c' := by
  induction al with
  | nil => simp [bumpCount, lookupCount, Ne.symm h]
  | cons e rest ih =>
    obtain ⟨k, n⟩ := e
    by_cases hk : k = c
    · subst hk
      simp [bumpCount, lookupCount, Ne.symm h]
    · simp [bumpCount, lookupCount, hk, ih]

theorem keys_bumpCount (al : List (Nat × Nat)) (c : Nat) :
    (bumpCount al c).map Prod.fst =
      if c ∈ al.map Prod.fst then al.map Prod.fst else al.map Prod.fst ++ [c] := by
  induction al with
  | nil => simp [bumpCount]
  | cons e rest ih =>
    obtain ⟨k, n⟩ := e
    by_cases h : k = c
    · subst h
      simp [bumpCount]
    · by_cases hm : c ∈ rest.map Prod.fst
      · simp [bumpCount, h, ih, hm, Ne.symm h]
      · simp [bumpCount, h, ih, hm, Ne.symm h]

theorem nodup_keys_bumpCount (al : List (Nat × Nat)) (c : Nat)
    (h : (al.map Prod.fst).Nodup) : ((bumpCount al c).map Prod.fst).Nodup := by
  rw [keys_bumpCount]
  by_cases hm : c ∈ al.map Prod.fst
  · simpa [hm] using h
  · simp only [hm, if_false]
    simp [List.nodup_append, h, hm]

theorem pos_bumpCount (al : List (Nat × Nat)) (c : Nat)
    (h : ∀ e ∈ al, 0 < e.2) : ∀ e ∈ bumpCount al c, 0 < e.2 := by
  induction al with
  | nil =>
    intro e he
    simp [bumpCount] at he
    simp [he]
  | cons a rest ih =>
    obtain ⟨k, n⟩ := a
    by_cases hk : k = c
    · subst hk
      intro e he
      rw [bumpCount, if_pos rfl] at he
      rcases List.mem_cons.mp he with rfl | hr
      · exact Nat.succ_pos n
      · exact h e (List.mem_cons_of_mem _ hr)
    · intro e he
      rw [bumpCount, if_neg hk] at he
      rcases List.mem_cons.mp he with rfl | hr
      · exact h (k, n) (List.mem_cons_self _ _)
      · exact ih (fun x hx => h x (List.mem_cons_of_mem _ hx)) e hr

theorem mem_counts_iff (al : List (Nat × Nat)) (h : (al.map Prod.fst).Nodup)
    (hpos : ∀ e ∈ al, 0 < e.2) (c k : Nat) :
    (c, k) ∈ al ↔ (lookupCount al c = k ∧ 0 < k) := by
  induction al with
  | nil =>
    simp [lookupCount]
    omega
  | cons e rest ih =>
    obtain ⟨k', n⟩ := e
    simp only [List.map_cons, List.nodup_cons] at h
    obtain ⟨hk', hnd⟩ := h
    have hpos' : ∀ x ∈ rest, 0 < x.2 :=
      fun x hx => hpos x (List.mem_cons_of_mem _ hx)
    by_cases hc : k' = c
    · subst hc
      constructor
      · intro hmem
        rcases List.mem_cons.mp hmem with heq | hr
        · have hkn : k = n := (Prod.mk.inj heq).2
          subst hkn
          exact ⟨by simp [lookupCount], hpos _ (List.mem_cons_self _ _)⟩
        · have : (k', k).1 ∈ rest.map Prod.fst := List.mem_map_of_mem Prod.fst hr
          exact absurd this (by simpa using hk')
      · rintro ⟨hl, hk⟩
        simp [lookupCount] at hl
        subst hl
        exact List.mem_cons_self _ _
    · rw [List.mem_cons]
      have hne : ¬ ((c, k) = (k', n)) := by
        simp [Prod.ext_iff, Ne.symm hc]
      simp only [hne, false_or]
      rw [ih hnd hpos']
      simp [lookupCount, hc]

theorem lookupCount_foldl (l : List Nat) (al : List (Nat × Nat)) (c : Nat) :
    lookupCount (l.foldl bumpCount al) c = lookupCount al c + l.count c := by
  induction l generalizing al with
  | nil => simp
  | cons a t ih =>
    rw [List.foldl_cons, ih]
    by_cases h : a = c
    · subst h
      rw [lookupCount_bumpCount_self]
      simp [List.count_cons]
      omega
    · rw [lookupCount_bumpCount_ne _ (Ne.symm h)]
      simp [List.count_cons, h]

theorem nodup_keys_foldl (l : List Nat) (al : List (Nat × Nat))
    (h : (al.map Prod.fst).Nodup) : ((l.foldl bumpCount al).map Prod.fst).Nodup := by
  induction l generalizing al with
  | nil => simpa using h
  | cons a t ih => exact ih _ (nodup_keys_bumpCount _ _ h)

theorem pos_foldl (l : List Nat) (al : List (Nat × Nat))
    (h : ∀ e ∈ al, 0 < e.2) : ∀ e ∈ l.foldl bumpCount al, 0 < e.2 := by
  induction l generalizing al with
  | nil => simpa using h
  | cons a t ih => exact ih _ (pos_bumpCount _ _ h)

theorem sum_bumpCount (al : List (Nat × Nat)) (c : Nat) :
    ((bumpCount al c).map Prod.snd).sum = ((al.map Prod.snd).sum : Nat) + 1 := by
  induction al with
  | nil => simp [bumpCount]
  | cons e rest ih =>
    obtain ⟨k, n⟩ := e
    by_cases h : k = c
    · subst h
      simp [bumpCount]
      omega
    · simp [bumpCount, h, ih]
      omega

theorem sum_foldl (l : List Nat) (al : List (Nat × Nat)) :
    ((l.foldl bumpCount al).map Prod.snd).sum = (al.map Prod.snd).sum + l.length := by
  induction l generalizing al with
  | nil => simp
  | cons a t ih =>
    rw [List.foldl_cons, ih, sum_bumpCount]
    simp only [List.length_cons]
    omega

theorem getVotesCountByPosition_eq_foldl (s : MemStorage) (p : Nat) :
    getVotesCountByPosition s p =
      ((getVotesByPosition s p).map Vote.candidateId).foldl bumpCount [] := by
  simp [getVotesCountByPosition, List.foldl_map]

theorem count_candidate_filter (l : List Vote) (p c : Nat) :
    ((l.filter (fun v => v.positionId == p)).map Vote.candidateId).count c =
      (l.filter (fun v => v.positionId == p && v.candidateId == c)).length := by
  induction l with
  | nil => simp
  | cons v t ih =>
    by_cases hp : v.positionId = p
    · by_cases hc : v.candidateId = c
      · simp [hp, hc, List.count_cons, ih]
      · simp [hp, hc, List.count_cons, ih]
    · simp [hp, ih]

/-- C8: for every position p, `getVotesCountByPosition p` contains the pair
(candidateId, k) exactly when k is the number of stored votes whose
positionId is p and whose candidateId is that candidate and k is at least
one; candidates with zero votes for p are omitted. -/
theorem getTally_spec (s : MemStorage) (p c k : Nat) :
    (c, k) ∈ getVotesCountByPosition s p ↔
      (k = (s.voteStore.filter
              (fun v => v.positionId == p && v.candidateId == c)).length ∧
        0 < k) := by
  rw [getVotesCountByPosition_eq_foldl,
    mem_counts_iff _ (nodup_keys_foldl _ _ (by simp)) (pos_foldl _ _ (by simp)),
    lookupCount_foldl]
  unfold getVotesByPosition
  rw [count_candidate_filter]
  simp [lookupCount]
  intro h
  exact eq_comm

/-- C9: the per-candidate counts returned by `getVotesCountByPosition p`
sum to the total number of stored votes for position p, and no candidateId
appears twice in the returned sequence. -/
theorem getTally_sum_and_keys (s : MemStorage) (p : Nat) :
    ((getVotesCountByPosition s p).map Prod.snd).sum =
        (s.voteStore.filter (fun v => v.positionId == p)).length ∧
    ((getVotesCountByPosition s p).map Prod.fst).Nodup := by
  constructor
  · rw [getVotesCountByPosition_eq_foldl, sum_foldl]
    simp [getVotesByPosition]
  · rw [getVotesCountByPosition_eq_foldl]
    exact nodup_keys_foldl _ _ (by simp)

theorem not_hasVoted_filter_nil (s : MemStorage) (st p : Nat)
    (h : hasStudentVotedForPosition s st p = false) :
    s.voteStore.filter (fun v => v.studentId == st && v.positionId == p) = [] := by
  unfold hasStudentVotedForPosition at h
  rw [List.filter_eq_nil_iff]
  intro a ha
  have := List.any_eq_false.mp h a ha
  simpa using this

theorem createVote_ok_shape (s : MemStorage) (iv : InsertVote) (v : Vote) (s2 : MemStorage)
    (h : createVote s iv = .ok (v, s2)) :
    hasStudentVotedForPosition s iv.studentId iv.positionId = false ∧
    v = ⟨s.voteIdCounter, iv.studentId, iv.candidateId, iv.positionId, s.clock⟩ ∧
    s2 = { s with voteStore := s.voteStore ++ [v],
                  voteIdCounter := s.voteIdCounter + 1 } := by
  unfold createVote at h
  split at h
  · exact absurd h (by simp)
  · next hn =>
    obtain ⟨h1, h2⟩ := Prod.mk.inj (Except.ok.inj h)
    subst h1
    subst h2
    exact ⟨by simpa using hn, rfl, rfl⟩

theorem createVote_preserves_unique (s : MemStorage) (iv : InsertVote) (v : Vote)
    (s2 : MemStorage) (h : VoteUnique s) (hok : createVote s iv = .ok (v, s2)) :
    VoteUnique s2 := by
  obtain ⟨hnv, hv, hs2⟩ := createVote_ok_shape s iv v s2 hok
  subst hv
  subst hs2
  intro st p
  simp only [List.filter_append, List.length_append]
  by_cases hsp : iv.studentId = st ∧ iv.positionId = p
  · obtain ⟨rfl, rfl⟩ := hsp
    rw [not_hasVoted_filter_nil s iv.studentId iv.positionId hnv]
    simp
  · have : (({ id := s.voteIdCounter, studentId := iv.studentId,
               candidateId := iv.candidateId, positionId := iv.positionId,
               timestamp := s.clock } : Vote).studentId == st &&
            ({ id := s.voteIdCounter, studentId := iv.studentId,
               candidateId := iv.candidateId, positionId := iv.positionId,
               timestamp := s.clock } : Vote).positionId == p) = false := by
      simp only [Bool.and_eq_false_iff, beq_eq_false_iff_ne]
      by_cases h1 : iv.studentId = st
      · exact .inr fun h2 => hsp ⟨h1, h2⟩
      · exact .inl h1
    simp only [List.filter_cons, this, List.filter_nil, List.length_nil,
      Nat.add_zero, if_false]
    exact h st p

theorem castVoteRoute_state_shape (s : MemStorage) (req : VoteRequest) :
    (castVoteRoute s req).2 = s ∨
      ∃ iv v s2, createVote s iv = .ok (v, s2) ∧ (castVoteRoute s req).2 = s2 := by
  unfold castVoteRoute
  split
  · exact Or.inl rfl
  · split
    · exact Or.inl rfl
    · split
      · exact Or.inl rfl
      · split
        · exact Or.inl rfl
        · split
          · exact Or.inl rfl
          · next v s2 heq => exact Or.inr ⟨_, v, s2, heq, rfl⟩

/-- C1: for every (voter, position) pair the vote store holds at most one
Vote at all times: `createVote` fails with an error and inserts nothing
when a vote with the same studentId and positionId already exists, a
successful `createVote` preserves the invariant, and so do `resetVotes`
and the whole vote route. -/
theorem voteStore_unique_invariant (s : MemStorage) (iv : InsertVote) (req : VoteRequest)
    (h : VoteUnique s) :
    ((∃ w ∈ s.voteStore, w.studentId = iv.studentId ∧ w.positionId = iv.positionId) →
        createVote s iv = .error "Student has already voted for this position") ∧
    (∀ v s2, createVote s iv = .ok (v, s2) → VoteUnique s2) ∧
    VoteUnique (resetVotes s).2 ∧
    VoteUnique (castVoteRoute s req).2 := by
  refine ⟨?_, ?_, ?_, ?_⟩
  · rintro ⟨w, hw, hst, hp⟩
    have hv : hasStudentVotedForPosition s iv.studentId iv.positionId = true := by
      unfold hasStudentVotedForPosition
      rw [List.any_eq_true]
      exact ⟨w, hw, by simp [hst, hp]⟩
    unfold createVote
    rw [if_pos hv]
  · exact fun v s2 hok => createVote_preserves_unique s iv v s2 h hok
  · intro st p
    simp [resetVotes]
  · rcases castVoteRoute_state_shape s req with heq | ⟨iv2, v, s2, hok, heq⟩
    · rw [heq]; exact h
    · rw [heq]; exact createVote_preserves_unique s iv2 v s2 h hok

/-- C1 witness: on a concrete store already holding the vote
(student 1, position 1), the invariant holds, a duplicate `createVote`
fails with the duplicate error, and the route preserves the invariant. -/
theorem voteStore_unique_invariant_witness :
    VoteUnique votedState ∧
    createVote votedState ⟨1, 1, 1⟩ =
      .error "Student has already voted for this position" ∧
    VoteUnique (castVoteRoute votedState ⟨some "S001", 1, 1⟩).2 := by
  have hinv : VoteUnique votedState :=
    fun st p => le_trans (List.length_filter_le _ _) (by decide)
  have h := voteStore_unique_invariant votedState ⟨1, 1, 1⟩ ⟨some "S001", 1, 1⟩ hinv
  exact ⟨hinv, h.1 ⟨⟨1, 1, 1, 1, 0⟩, by decide, rfl, rfl⟩, h.2.2.2⟩

/-- C4: when the `votingEnabled` setting is anything other than "true",
the vote route answers VotingClosed immediately and leaves the state (in
particular the vote store) untouched, for every request whatsoever — no
other precondition is even consulted. -/
theorem votingClosed_guard (s : MemStorage) (req : VoteRequest)
    (h : getSetting s "votingEnabled" ≠ some "true") :
    castVoteRoute s req = (.votingClosed, s) := by
  unfold castVoteRoute
  rw [if_pos h]

/-- C4 witness: on the concrete disabled-voting state (with a valid
student and candidate present) the route answers VotingClosed. -/
theorem votingClosed_guard_witness :
    getSetting closedState "votingEnabled" ≠ some "true" ∧
    castVoteRoute closedState ⟨some "S001", 1, 1⟩ = (.votingClosed, closedState) :=
  ⟨by decide, votingClosed_guard closedState ⟨some "S001", 1, 1⟩ (by decide)⟩

/-- C5: after `resetVotes` the vote store is empty: every position's tally
is the empty list, no (student, position) pair is recorded as having
voted, and a subsequent `createVote` for any pair — previously voted or
not — succeeds. -/
theorem resetVotes_clears (s : MemStorage) :
    (∀ p, getVotesCountByPosition (resetVotes s).2 p = []) ∧
    (∀ st p, hasStudentVotedForPosition (resetVotes s).2 st p = false) ∧
    (∀ iv : InsertVote, createVote (resetVotes s).2 iv =
        .ok (⟨1, iv.studentId, iv.candidateId, iv.positionId, s.clock⟩,
          { s with
              voteStore := [⟨1, iv.studentId, iv.candidateId, iv.positionId, s.clock⟩],
              voteIdCounter := 2 })) := by
  refine ⟨?_, ?_, ?_⟩
  · intro p
    simp [resetVotes, getVotesCountByPosition, getVotesByPosition]
  · intro st p
    simp [resetVotes, hasStudentVotedForPosition]
  · intro iv
    simp [resetVotes, createVote, hasStudentVotedForPosition]

/-- C10: a candidate referenced by at least one stored vote can never be
deleted: `deleteCandidate` returns false and leaves the state unchanged. -/
theorem deleteCandidate_votes_guard (s : MemStorage) (c : Nat)
    (h : ∃ v ∈ s.voteStore, v.candidateId = c) :
    deleteCandidate s c = (false, s) := by
  have hany : s.voteStore.any (fun v => v.candidateId == c) = true := by
    rw [List.any_eq_true]
    obtain ⟨v, hv, hc⟩ := h
    exact ⟨v, hv, by simp [hc]⟩
  unfold deleteCandidate
  rw [if_pos hany]

/-- C10 witness: deleting candidate 1 is refused on the concrete state in
which student 1 has voted for candidate 1. -/
theorem deleteCandidate_votes_guard_witness :
    deleteCandidate votedState 1 = (false, votedState) :=
  deleteCandidate_votes_guard votedState 1 ⟨⟨1, 1, 1, 1, 0⟩, by decide, rfl⟩

/-- C2 counterexample: on a concrete state in which candidate 1 exists but
is stored under position 2, a cast for candidate 1 under position 1 does
NOT fail — the route succeeds and creates a Vote recording the mismatched
(candidateId 1, positionId 1) pair.  There is no CandidateMismatch outcome
anywhere in the handler. -/
theorem crossPosition_vote_accepted :
    mismatchState.candidateStore.find? (fun c => c.id == mismatchReq.candidateId) =
      some ⟨1, 2, 2, "manifesto"⟩ ∧
    (∀ c ∈ mismatchState.candidateStore,
        c.id = mismatchReq.candidateId → c.positionId ≠ mismatchReq.positionId) ∧
    castVoteRoute mismatchState mismatchReq =
      (.success,
        { mismatchState with voteStore := [⟨1, 1, 1, 1, 0⟩], voteIdCounter := 2 }) :=
  ⟨rfl, by decide, by decide⟩

/-- C2 (amended): the vote route performs no candidate existence or
candidate/position consistency check at all.  Whenever voting is enabled,
the request is authenticated, the student exists, and the pair has not
voted yet, the cast succeeds and records exactly the supplied candidateId
and positionId — irrespective of the candidate store's contents, so a
candidate stored under a different position is accepted rather than
rejected with CandidateMismatch. -/
theorem castVote_no_candidate_check (s : MemStorage) (req : VoteRequest)
    (username : String) (student : Student)
    (henabled : getSetting s "votingEnabled" = some "true")
    (huser : req.user = some username)
    (hstudent : getStudentByStudentId s username = some student)
    (hnotvoted : hasStudentVotedForPosition s student.id req.positionId = false) :
    castVoteRoute s req =
      (.success,
        { s with
            voteStore := s.voteStore ++
              [⟨s.voteIdCounter, student.id, req.candidateId, req.positionId, s.clock⟩],
            voteIdCounter := s.voteIdCounter + 1 }) := by
  unfold castVoteRoute
  rw [if_neg (by simp [henabled])]
  split
  · next heq => simp [huser] at heq
  · next u heq =>
    have hu : u = username := by
      rw [huser] at heq
      exact (Option.some.inj heq).symm
    subst hu
    split
    · next heq2 => rw [hstudent] at heq2; simp at heq2
    · next stu heq2 =>
      have hst : stu = student := by
        rw [hstudent] at heq2
        exact (Option.some.inj heq2).symm
      rw [hst]
      rw [if_neg (by simp [hnotvoted])]
      have hc : createVote s
          { studentId := student.id, candidateId := req.candidateId,
            positionId := req.positionId } =
          .ok (⟨s.voteIdCounter, student.id, req.candidateId, req.positionId, s.clock⟩,
            { s with
                voteStore := s.voteStore ++
                  [⟨s.voteIdCounter, student.id, req.candidateId,
                    req.positionId, s.clock⟩],
                voteIdCounter := s.voteIdCounter + 1 }) := by
        unfold createVote
        rw [if_neg (by simp [hnotvoted])]
      rw [hc]

/-- C2 (amended) witness: the concrete cross-position cast goes through
the amended theorem and creates the mismatched vote. -/
theorem castVote_no_candidate_check_witness :
    hasStudentVotedForPosition mismatchState st1.id mismatchReq.positionId = false ∧
    castVoteRoute mismatchState mismatchReq =
      (.success,
        { mismatchState with voteStore := [⟨1, 1, 1, 1, 0⟩], voteIdCounter := 2 }) := by
  refine ⟨by decide, ?_⟩
  have h := castVote_no_candidate_check mismatchState mismatchReq "S001" st1
    (by decide) rfl (by decide) (by decide)
  exact h

/-- C3 counterexample: on a concrete database state already holding a vote
by student 1 for position 1, the insert performed by
`DatabaseStorage.createVote` fails with the `one_vote_per_position`
uniqueness violation, and the route's catch block turns that error into a
generic 500 response carrying the raw message — not into the domain-level
DuplicateVote response (status 400, "You have already voted for this
position"). -/
theorem uniqueViolation_not_translated_counterexample :
    dbCreateVote dbDupState ⟨1, 2, 1⟩ =
      .error (.uniqueViolation "one_vote_per_position") ∧
    voteCatchHandler (.storageFailure (.uniqueViolation "one_vote_per_position")) =
      ⟨500, "duplicate key value violates unique constraint one_vote_per_position"⟩ ∧
    voteCatchHandler (.storageFailure (.uniqueViolation "one_vote_per_position")) ≠
      duplicateVoteResponse :=
  ⟨rfl, rfl, by decide⟩

/-- C3 (amended): no storage failure is translated into the domain-level
DuplicateVote: the `one_vote_per_position` uniqueness violation raised by
the bare insert in `DatabaseStorage.createVote`, like every other storage
failure, reaches the route's catch block and surfaces as a generic 500
response with the raw error message, never as the DuplicateVote response;
the duplicate-vote 400 response is produced only by the route's explicit
`hasStudentVotedForPosition` pre-check. -/
theorem storage_failures_surface_generic (db : DbState) (iv : InsertVote) (e : DbError)
    (h : ∃ v ∈ db.votes, v.studentId = iv.studentId ∧ v.positionId = iv.positionId) :
    dbCreateVote db iv = .error (.uniqueViolation "one_vote_per_position") ∧
    voteCatchHandler (.storageFailure e) = ⟨500, dbErrorMessage e⟩ ∧
    voteCatchHandler (.storageFailure e) ≠ duplicateVoteResponse := by
  refine ⟨?_, rfl, ?_⟩
  · have hany : db.votes.any
        (fun v => v.studentId == iv.studentId && v.positionId == iv.positionId) = true := by
      rw [List.any_eq_true]
      obtain ⟨v, hv, h1, h2⟩ := h
      exact ⟨v, hv, by simp [h1, h2]⟩
    unfold dbCreateVote
    rw [if_pos hany]
  · intro contra
    have : (voteCatchHandler (.storageFailure e)).status = 400 := by
      rw [contra]; rfl
    simp [voteCatchHandler] at this

/-- C3 (amended) witness: the concrete duplicate insert and a concrete
infrastructure failure both surface as generic 500 responses. -/
theorem storage_failures_surface_generic_witness :
    dbCreateVote dbDupState ⟨1, 2, 1⟩ =
      .error (.uniqueViolation "one_vote_per_position") ∧
    voteCatchHandler (.storageFailure (.connectionFailure "connection lost")) =
      ⟨500, "connection lost"⟩ ∧
    voteCatchHandler (.storageFailure (.connectionFailure "connection lost")) ≠
      duplicateVoteResponse :=
  storage_failures_surface_generic dbDupState ⟨1, 2, 1⟩
    (.connectionFailure "connection lost") ⟨⟨1, 1, 1, 1, 0⟩, by decide, rfl, rfl⟩

theorem dedup_length_eq_votersCard (s : MemStorage) (did : Nat) :
    ((s.voteStore.filter
        (fun v => ((departmentMembers s did).map Student.id).contains v.studentId)).map
      Vote.studentId).dedup.length = votersCard s did := by
  rw [votersCard, ← List.card_toFinset]
  congr 1
  ext i
  simp only [List.mem_toFinset, Finset.mem_filter, List.mem_map, List.mem_filter]
  constructor
  · rintro ⟨v, ⟨hv, hcont⟩, rfl⟩
    refine ⟨?_, ?_⟩
    · have : v.studentId ∈ (departmentMembers s did).map Student.id := by
        simpa using hcont
      simpa using this
    · intro hnil
      rw [getVotesByStudent, List.filter_eq_nil_iff] at hnil
      exact hnil v hv (by simp)
  · rintro ⟨⟨st, hst, hid⟩, hne⟩
    have hex : ∃ v ∈ s.voteStore, v.studentId = i := by
      by_contra hc
      push_neg at hc
      apply hne
      rw [getVotesByStudent, List.filter_eq_nil_iff]
      intro v hv
      simp [hc v hv]
    obtain ⟨v, hv, hvi⟩ := hex
    refine ⟨v, ⟨hv, ?_⟩, hvi⟩
    have hmem : v.studentId ∈ (departmentMembers s did).map Student.id := by
      rw [hvi]
      simp only [List.mem_map]
      exact ⟨st, hst, hid⟩
    simpa using hmem

/-- C6: for every department (cohort) with at least one member, the
statistics returned by `getVotingStatsByDepartment` contain, for that
department, the percentage obtained by dividing the number of distinct
members who have cast at least one vote (for any position) by the cohort
size, multiplying by 100 and rounding to the nearest integer. -/
theorem getParticipation_spec (s : MemStorage) (d : Department)
    (hd : d ∈ s.departmentStore)
    (hne : departmentMembers s d.id ≠ []) :
    DeptStat.mk d.id d.name
        (mathRound ((votersCard s d.id : ℚ) /
          ((departmentMembers s d.id).length : ℚ) * 100))
      ∈ getVotingStatsByDepartment s := by
  rw [getVotingStatsByDepartment, List.mem_filterMap]
  refine ⟨d, hd, ?_⟩
  have hlen : ¬ (departmentMembers s d.id).length = 0 := by
    simpa [List.length_eq_zero] using hne
  simp only [hlen, if_false, Option.some.injEq]
  rw [dedup_length_eq_votersCard]

/-- C6 witness: in the concrete three-student cohort where only student 1
has voted, the reported participation is 33 percent. -/
theorem getParticipation_spec_witness :
    departmentMembers partState 1 ≠ [] ∧
    DeptStat.mk 1 "Engineering" 33 ∈ getVotingStatsByDepartment partState := by
  refine ⟨by decide, ?_⟩
  have h := getParticipation_spec partState ⟨1, "Engineering"⟩ (by decide) (by decide)
  have hv : votersCard partState (1 : Nat) = 1 := by decide
  have hm : (departmentMembers partState (1 : Nat)).length = 3 := by decide
  rw [show (⟨1, "Engineering"⟩ : Department).id = (1 : Nat) from rfl] at h
  rw [hv, hm] at h
  have hr : mathRound (((1 : Nat) : ℚ) / ((3 : Nat) : ℚ) * 100) = 33 := by
    norm_num [mathRound]
  rw [hr] at h
  exact h

/-- C7 counterexample: department 1 exists and has zero members, yet
`getVotingStatsByDepartment` returns no entry at all for it — the empty
cohort is skipped, it does not "yield the percentage 0". -/
theorem emptyDept_reports_nothing :
    (⟨1, "Empty"⟩ : Department) ∈ emptyDeptState.departmentStore ∧
    departmentMembers emptyDeptState 1 = [] ∧
    getVotingStatsByDepartment emptyDeptState = [] := by
  refine ⟨by decide, by decide, by decide⟩

/-- C7 (amended): a department (cohort) with zero members is skipped by
the participation computation: `getVotingStatsByDepartment` emits no entry
whose departmentId matches it — in particular no entry with percentage 0 —
and the division by the cohort size is never performed (the guard makes
the function total, so no error and no NaN can arise). -/
theorem emptyDept_skipped (s : MemStorage) (did : Nat)
    (h : departmentMembers s did = []) :
    ∀ e ∈ getVotingStatsByDepartment s, e.departmentId ≠ did := by
  intro e he
  rw [getVotingStatsByDepartment, List.mem_filterMap] at he
  obtain ⟨d, hd, hfd⟩ := he
  intro heq
  by_cases hz : (departmentMembers s d.id).length = 0
  · rw [if_pos hz] at hfd
    exact Option.noConfusion hfd
  · rw [if_neg hz] at hfd
    have hdid : e.departmentId = d.id := by
      have := Option.some.inj hfd
      rw [← this]
    apply hz
    rw [hdid] at heq
    rw [heq, h]
    rfl

/-- C7 (amended) witness: on the concrete state with an empty department
1, no reported entry names department 1. -/
theorem emptyDept_skipped_witness :
    departmentMembers emptyDeptState 1 = [] ∧
    ∀ e ∈ getVotingStatsByDepartment emptyDeptState, e.departmentId ≠ 1 :=
  ⟨by decide, emptyDept_skipped emptyDeptState 1 (by decide)⟩

end VotingMachine
